import Mathlib

/-
  Verification of the MindForger orchestration core (lib/src/mind/mind.cpp)
  against its natural-language specification.

  The C++ code is shallowly embedded: the `Mind` object becomes a record of its
  member state, each member function becomes a state-passing Lean function, and
  collaborator classes that are declared elsewhere in the repository (Outline,
  Memory, TimeScopeAspect, Ai, ...) are modelled from the specification, as
  marked in their doc comments.
-/

namespace M8r

/-- Modelled from the spec: `stringToLower` (gear string utilities, not under
src) lowercases every character of a string; used so that, for case-insensitive
search, both pattern and compared fields are lowercased before comparison. -/
def stringToLower (s : List Char) : List Char := s.map Char.toLower

/-- Substring containment over byte sequences: models
`std::string::find(pat) != std::string::npos`. -/
def strContains (pat : List Char) : List Char → Bool
  | [] => pat.isEmpty
  | c :: rest => pat.isPrefixOf (c :: rest) || strContains pat rest

/-- A Note: an item within exactly one Outline; `description` is an ordered
sequence of possibly-null text blocks (`std::vector<std::string*>`). -/
structure Note where
  name : List Char
  depth : Nat
  description : List (Option (List Char))
  modified : Nat
  progress : Int
  tags : List (List Char)
deriving Repr, DecidableEq

/-- An Outline: a document with a unique key and an ordered sequence of owned
Notes; `description` are its own text blocks, `preamble` its preamble blocks. -/
structure Outline where
  key : List Char
  name : List Char
  description : List (Option (List Char))
  notes : List Note
  modified : Nat
  importance : Int
  urgency : Int
  progress : Int
  tags : List (List Char)
  preamble : List (List Char)
deriving Repr, DecidableEq

/-- Modelled from the spec: the synthetic descriptor Note standing for an
Outline in search results (`Outline::getOutlineDescriptorAsNote`, not under
src); it carries the Outline's own name and description blocks. -/
def Outline.descriptorNote (o : Outline) : Note :=
  { name := o.name
    depth := 0
    description := o.description
    modified := o.modified
    progress := 0
    tags := o.tags }

/-- Modelled from the spec: a time scope restricts visible Notes to a
configured time window (`TimeScopeAspect`, not under src). A Note whose
modification timestamp falls before the window threshold is out of scope. -/
structure TimeScopeAspect where
  enabled : Bool
  threshold : Nat
deriving Repr, DecidableEq

/-- Modelled from the spec: `TimeScopeAspect::isOutOfScope` (not under src). -/
def TimeScopeAspect.isOutOfScope (a : TimeScopeAspect) (n : Note) : Bool :=
  n.modified < a.threshold

/-- Mind state of the orchestration state machine
(`Configuration::MindState`). -/
inductive MindState where
  | SLEEPING
  | DREAMING
  | THINKING
deriving Repr, DecidableEq

/-- The handle returned by `think`: either a promise already resolved to
`false`, or the pending handle of the Ai collaborator's asynchronous dream. -/
inductive FutureBool where
  | resolvedFalse
  | pendingDream
deriving Repr, DecidableEq

/-- A triple of the inferred-relationship cache. -/
abbrev Triple := List Char × List Char × List Char

/-- Modelled from the spec: a Patch describes the before/after range of a
structural edit for incremental UI update (`Outline::Patch`, not under src). -/
structure Patch where
  start : Nat
  count : Nat
deriving Repr, DecidableEq

/-- Result of a Mind operation: a value, a thrown `MindForgerException`
carrying its message, or undefined behavior (invalid pointer dereference). -/
inductive MRes (α : Type) where
  | ok : α → MRes α
  | fault : List Char → MRes α
  | undef : MRes α
deriving Repr, DecidableEq

/-- Whether a Mind operation produced a value. -/
def MRes.isOk {α : Type} : MRes α → Bool
  | MRes.ok _ => true
  | _ => false

/-- A reference to a Note: the key of its owning Outline (the Note's
back-pointer `Note::getOutline`) plus its position in that Outline's ordered
Note sequence (standing for the C++ `Note*` identity). -/
structure NoteRef where
  outlineKey : List Char
  idx : Nat
deriving Repr, DecidableEq

/-- The Mind object's member state, together with the state it reaches through
its collaborators: `mindState`/`savedConfigs` live in the Configuration
collaborator, `memory`/`limbo` in the Memory collaborator, `aiSleepOk` is the
Ai collaborator's answer to `Ai::sleep()`, and `now` stands for
`datetimeNow()`. -/
structure Mind where
  mindState : MindState
  activeProcesses : Nat
  allNotesCache : List Note
  memoryDwell : List Note
  triples : List Triple
  memory : List Outline
  limbo : List Outline
  savedConfigs : Nat
  aiSleepOk : Bool
  timeScope : TimeScopeAspect
  now : Nat
deriving Repr, DecidableEq

/-- Key lookup over a sequence of Outlines: the first Outline carrying the
key, if any. -/
def lookupOutline : List Outline → List Char → Option Outline
  | [], _ => none
  | o :: rest, k => if o.key = k then some o else lookupOutline rest k

/-- Key-presence check over a sequence of Outlines. -/
def hasOutlineKey : List Outline → List Char → Bool
  | [], _ => false
  | o :: rest, k => if o.key = k then true else hasOutlineKey rest k

/-- Modelled from the spec: `Memory::getOutline(key)` (not under src) returns
the remembered Outline with the given unique key, if any. -/
def Mind.getOutline (m : Mind) (key : List Char) : Option Outline :=
  lookupOutline m.memory key

/-- Modelled from the spec: `Memory::remember(outline)` (not under src) makes
the (new or mutated) Outline the one stored under its key. -/
def Mind.remember (m : Mind) (o : Outline) : Mind :=
  if hasOutlineKey m.memory o.key then
    { m with memory := m.memory.map (fun x => if x.key = o.key then o else x) }
  else
    { m with memory := m.memory ++ [o] }

/-- `Mind::onRemembering`: clears the all-notes cache. -/
def Mind.onRemembering (m : Mind) : Mind :=
  { m with allNotesCache := [] }

/-
 * THINKING (mind.cpp lines 51-180)
 -/

/-- `Mind::mindDream`: private helper of `think`. When SLEEPING, switches the
state to DREAMING and hands off to the Ai collaborator (`ai->dream()`, whose
pending handle is `FutureBool.pendingDream`); otherwise returns a promise
already resolved to false. -/
def Mind.mindDream (m : Mind) : Mind × FutureBool :=
  if m.mindState = MindState.SLEEPING then
    ({ m with mindState := MindState.DREAMING }, FutureBool.pendingDream)
  else
    (m, FutureBool.resolvedFalse)

/-- `Mind::think`: when SLEEPING, gets ready for thinking via `mindDream`;
otherwise returns a promise already resolved to false. -/
def Mind.think (m : Mind) : Mind × FutureBool :=
  if m.mindState = MindState.SLEEPING then
    m.mindDream
  else
    (m, FutureBool.resolvedFalse)

/-- `Mind::mindSleep`: when not DREAMING and no foreground processes are
active, asks the Ai collaborator to sleep; on its success clears the all-notes
cache, the memory dwell and the triples, sets the state to SLEEPING and
persists the configuration; in every other case returns false. -/
def Mind.mindSleep (m : Mind) : Mind × Bool :=
  if m.mindState ≠ MindState.DREAMING ∧ m.activeProcesses = 0 then
    if m.aiSleepOk then
      ({ m with
          allNotesCache := []
          memoryDwell := []
          triples := []
          mindState := MindState.SLEEPING
          savedConfigs := m.savedConfigs + 1 }, true)
    else
      (m, false)
  else
    (m, false)

/-- `Mind::sleep`: public guarded entry point delegating to `mindSleep`. -/
def Mind.sleep (m : Mind) : Mind × Bool :=
  m.mindSleep

/-- `Mind::mindAmnesia`: when not DREAMING and no foreground processes are
active, runs `mindSleep` (its result is not checked) and then discards all
learned data in Memory (`memory.amnesia()`, modelled from the spec as a full
reset of active memory and limbo); otherwise returns false. -/
def Mind.mindAmnesia (m : Mind) : Mind × Bool :=
  if m.mindState ≠ MindState.DREAMING ∧ m.activeProcesses = 0 then
    let m1 := (m.mindSleep).1
    ({ m1 with memory := [], limbo := [] }, true)
  else
    (m, false)

/-- `Mind::amnesia`: public guarded entry point delegating to `mindAmnesia`. -/
def Mind.amnesia (m : Mind) : Mind × Bool :=
  m.mindAmnesia

/-
 * REMEMBERING - full-text search (mind.cpp lines 214-311)
 -/

/-- Case-insensitive match of one Note (or Outline descriptor): its name or
any non-null description block, lowercased, contains the pattern. -/
def noteMatchesCI (r : List Char) (n : Note) : Bool :=
  strContains r (stringToLower n.name)
    || n.description.any (fun d =>
        match d with
        | some s => strContains r (stringToLower s)
        | none => false)

/-- Case-sensitive match of one Note (or Outline descriptor): its name or any
non-null description block contains the pattern byte-exactly. -/
def noteMatchesCS (r : List Char) (n : Note) : Bool :=
  strContains r n.name
    || n.description.any (fun d =>
        match d with
        | some s => strContains r s
        | none => false)

/-- The per-outline helper `Mind::findNoteFts(result, regexp, ignoreCase,
outline)`: appends the Outline's descriptor Note when the Outline's name or a
description block matches, then every matching Note. In the case-insensitive
branch Notes out of the enabled time scope are skipped; the case-sensitive
branch has no time-scope check. -/
def findNoteFtsInOutline (ts : TimeScopeAspect) (r : List Char)
    (ignoreCase : Bool) (o : Outline) : List Note :=
  if ignoreCase then
    (if noteMatchesCI r o.descriptorNote then [o.descriptorNote] else [])
      ++ o.notes.filter (fun n =>
          !(ts.enabled && ts.isOutOfScope n) && noteMatchesCI r n)
  else
    (if noteMatchesCS r o.descriptorNote then [o.descriptorNote] else [])
      ++ o.notes.filter (fun n => noteMatchesCS r n)

/-- The public `Mind::findNoteFts(regexp, ignoreCase, scope)`: clears the
all-notes cache when it is non-empty, lowercases the pattern in the
case-insensitive mode, and scans the scope Outline or, absent a scope, all
Outlines of Memory in order. -/
def Mind.findNoteFts (m : Mind) (regexp : List Char) (ignoreCase : Bool)
    (scope : Option Outline) : List Note × Mind :=
  let m' : Mind :=
    if m.allNotesCache.length ≠ 0 then { m with allNotesCache := [] } else m
  let r : List Char := if ignoreCase then stringToLower regexp else regexp
  let result : List Note :=
    match scope with
    | some o => findNoteFtsInOutline m.timeScope r ignoreCase o
    | none => (m.memory.map (findNoteFtsInOutline m.timeScope r ignoreCase)).flatten
  (result, m')

/-
 * Structural editor - collaborator operations on Outlines
 -/

/-- Modelled from the spec: `Memory::createOutlineKey(name)` (not under src)
allocates a fresh unique key derived from the name. -/
def Mind.createOutlineKey (m : Mind) (name : List Char) : List Char :=
  name ++ ('#' :: Nat.toDigits 10 (m.memory.length + m.limbo.length))

/-- Modelled from the spec: `Memory::createLimboKey(name)` (not under src)
re-keys a soft-deleted Outline into the limbo namespace. -/
def createLimboKey (name : List Char) : List Char :=
  ("limbo/").toList ++ name

/-- A freshly built default Note with completed properties
(`new Note` followed by `completeProperties(datetimeNow())`). -/
def defaultNote (now : Nat) : Note :=
  { name := []
    depth := 0
    description := []
    modified := now
    progress := 0
    tags := [] }

/-- Modelled from the spec: `Outline::addNote(n, offset)` (not under src)
inserts a Note into the ordered Note sequence at the given offset. -/
def Outline.addNote (o : Outline) (n : Note) (offset : Nat) : Outline :=
  { o with notes := o.notes.take offset ++ n :: o.notes.drop offset }

/-- Modelled from the spec: `Outline::addNotes(ns, offset)` (not under src)
inserts a sequence of Notes at the given offset, preserving their relative
order and depth structure. -/
def Outline.addNotes (o : Outline) (ns : List Note) (offset : Nat) : Outline :=
  { o with notes := o.notes.take offset ++ ns ++ o.notes.drop offset }

/-- Modelled from the spec: `Outline::getNoteChildren` (not under src) - a
Note's children are the contiguous run of subsequent Notes with strictly
greater depth, up to the next Note at equal-or-lower depth. -/
def Outline.getNoteChildren (o : Outline) (idx : Nat) : List Note :=
  match o.notes.get? idx with
  | some n => (o.notes.drop (idx + 1)).takeWhile (fun c => n.depth < c.depth)
  | none => []

/-- Modelled from the spec: `Outline::removeNote` (not under src) removes the
Note at the given position together with its depth-computed descendant
subtree. -/
def Outline.removeNoteAt (o : Outline) (idx : Nat) : Outline :=
  match o.notes.get? idx with
  | some n =>
      { o with notes := o.notes.take idx
          ++ (o.notes.drop (idx + 1)).dropWhile (fun c => n.depth < c.depth) }
  | none => o

/-- Modelled from the spec: `Outline::forgetNote` (not under src) removes a
Note and implicitly its subtree, per the Outline's own removal semantics. -/
def Outline.forgetNote (o : Outline) (idx : Nat) : Outline :=
  o.removeNoteAt idx

/-- Modelled from the spec: `Outline::cloneNote` (not under src) deep-copies a
Note and its subtree within its Outline, placing the copy right after the
original subtree; returns the clone. -/
def Outline.cloneNote (o : Outline) (idx : Nat) : Outline × Option Note :=
  match o.notes.get? idx with
  | some n =>
      let sub := n :: o.getNoteChildren idx
      ({ o with notes := o.notes.take (idx + sub.length) ++ sub
            ++ o.notes.drop (idx + sub.length) }, some n)
  | none => (o, none)

/-- Modelled from the spec: the previous sibling of the Note at `idx` - the
nearest preceding Note at equal depth with no intervening Note at lower
depth. -/
def Outline.prevSibling (o : Outline) (idx : Nat) : Option Nat :=
  match o.notes.get? idx with
  | none => none
  | some n =>
      match ((List.range idx).reverse.dropWhile
              (fun j => (o.notes.get? j).elim true (fun c => n.depth < c.depth))).head? with
      | some j =>
          if (o.notes.get? j).elim false (fun c => c.depth = n.depth) then some j
          else none
      | none => none

/-- Modelled from the spec: `Outline::moveNoteUp` (not under src) swaps the
Note's subtree with the previous sibling's position, producing a Patch of the
affected range; a Note with no previous sibling is left in place. -/
def Outline.moveNoteUp (o : Outline) (idx : Nat) : Outline × Option Patch :=
  match o.notes.get? idx with
  | none => (o, none)
  | some n =>
      match o.prevSibling idx with
      | none => (o, none)
      | some j =>
          let sub := n :: o.getNoteChildren idx
          let rest := (o.notes.drop (idx + 1)).dropWhile (fun c => n.depth < c.depth)
          ({ o with notes := o.notes.take j ++ sub ++ (o.notes.take idx).drop j ++ rest },
           some { start := j, count := idx - j + sub.length })

/-- Modelled from the spec: `Outline::moveNoteDown` (not under src) swaps the
Note's subtree with the next sibling's subtree, producing a Patch; a Note with
no next sibling is left in place. -/
def Outline.moveNoteDown (o : Outline) (idx : Nat) : Outline × Option Patch :=
  match o.notes.get? idx with
  | none => (o, none)
  | some n =>
      let sub := n :: o.getNoteChildren idx
      let next := idx + sub.length
      match o.notes.get? next with
      | none => (o, none)
      | some nn =>
          if nn.depth = n.depth then
            let nsub := nn :: o.getNoteChildren next
            ({ o with notes := o.notes.take idx ++ nsub ++ sub
                  ++ o.notes.drop (next + nsub.length) },
             some { start := idx, count := sub.length + nsub.length })
          else (o, none)

/-- Modelled from the spec: `Outline::moveNoteToFirst` (not under src) moves
the Note's subtree to the first position. -/
def Outline.moveNoteToFirst (o : Outline) (idx : Nat) : Outline × Option Patch :=
  match o.notes.get? idx with
  | none => (o, none)
  | some n =>
      let sub := n :: o.getNoteChildren idx
      let rest := (o.notes.drop (idx + 1)).dropWhile (fun c => n.depth < c.depth)
      ({ o with notes := sub ++ o.notes.take idx ++ rest },
       some { start := 0, count := idx + sub.length })

/-- Modelled from the spec: `Outline::moveNoteToLast` (not under src) moves
the Note's subtree to the last position. -/
def Outline.moveNoteToLast (o : Outline) (idx : Nat) : Outline × Option Patch :=
  match o.notes.get? idx with
  | none => (o, none)
  | some n =>
      let sub := n :: o.getNoteChildren idx
      let rest := (o.notes.drop (idx + 1)).dropWhile (fun c => n.depth < c.depth)
      ({ o with notes := o.notes.take idx ++ rest ++ sub },
       some { start := idx, count := o.notes.length - idx })

/-- Modelled from the spec: `Outline::promoteNote` (not under src) decreases
the depth of the Note's subtree by one level; a Note at root depth is left in
place, as depth must never go negative. -/
def Outline.promoteNote (o : Outline) (idx : Nat) : Outline × Option Patch :=
  match o.notes.get? idx with
  | none => (o, none)
  | some n =>
      if n.depth = 0 then (o, none)
      else
        let k := 1 + (o.getNoteChildren idx).length
        ({ o with notes := o.notes.take idx
              ++ ((o.notes.drop idx).take k).map (fun c => { c with depth := c.depth - 1 })
              ++ o.notes.drop (idx + k) },
         some { start := idx, count := k })

/-- Modelled from the spec: `Outline::demoteNote` (not under src) increases
the depth of the Note's subtree by one level. -/
def Outline.demoteNote (o : Outline) (idx : Nat) : Outline × Option Patch :=
  match o.notes.get? idx with
  | none => (o, none)
  | some _ =>
      let k := 1 + (o.getNoteChildren idx).length
      ({ o with notes := o.notes.take idx
            ++ ((o.notes.drop idx).take k).map (fun c => { c with depth := c.depth + 1 })
            ++ o.notes.drop (idx + k) },
       some { start := idx, count := k })

/-
 * Structural editor - Mind operations (mind.cpp lines 473-692)
 -/

/-- Message of the `MindForgerException` thrown when a referenced Outline key
is absent. -/
def notFoundMsg : List Char :=
  ("Outline for given key not found!").toList

/-- Message of the `MindForgerException` thrown by `noteRefactor` on a null
Note argument. -/
def refactorNullMsg : List Char :=
  ("Note to be refactored is nullptr!").toList

/-- Message of the `MindForgerException` thrown by `noteForget` when the Note
has no resolvable owning Outline. -/
def forgetNoOutlineMsg : List Char :=
  ("Unable find Outline from which should be the Note deleted!").toList

/-- Modelled from the spec: the `NO_PARENT` offset constant (declared in
`outline.h`, not under src); per the spec, offset 0 means prepend/no-parent. -/
def noParentOffset : Nat := 0

/-- Writing a mutated Outline object back under its key: the value-level
counterpart of mutating the Outline that Memory's pointer already
references. -/
def Mind.updateOutline (m : Mind) (o : Outline) : Mind :=
  { m with memory := m.memory.map (fun x => if x.key = o.key then o else x) }

/-- Resolution of a Note reference: the owning Outline named by the Note's
back-pointer and the Note value at the referenced position. -/
def Mind.resolveNote (m : Mind) (r : NoteRef) : Option (Outline × Note) :=
  match m.getOutline r.outlineKey with
  | some o =>
      match o.notes.get? r.idx with
      | some n => some (o, n)
      | none => none
  | none => none

/-- `Mind::outlineNew`: builds an Outline from the stencil or afresh, sets the
preamble, completes properties with the current time, sets key, name, type
properties and tags, synthesizes one default Note when the Outline has none,
remembers it in Memory and runs `onRemembering`; returns the fresh key. -/
def Mind.outlineNew (m : Mind) (name : Option (List Char))
    (importance urgency progress : Int) (tags : List (List Char))
    (preamble : List (List Char)) (stencil : Option Outline) :
    Mind × List Char :=
  let key := m.createOutlineKey (name.getD [])
  let o0 : Outline :=
    match stencil with
    | some st => { st with modified := m.now }
    | none =>
        { key := [], name := [], description := [], notes := [], modified := m.now,
          importance := 0, urgency := 0, progress := 0, tags := [], preamble := [] }
  let o1 := if preamble.length ≠ 0 then { o0 with preamble := preamble } else o0
  let o2 := { o1 with modified := m.now, key := key }
  let o3 :=
    match name with
    | some nm => if nm.isEmpty then o2 else { o2 with name := nm }
    | none => o2
  let o4 := { o3 with importance := importance, urgency := urgency,
                      progress := progress, tags := o3.tags ++ tags }
  let o5 :=
    if o4.notes.isEmpty then { o4 with notes := [defaultNote m.now] } else o4
  (((m.remember o5).onRemembering), key)

/-- `Mind::outlineClone`: deep-copies an existing Outline under a freshly
derived key, remembers it and runs `onRemembering`; returns null when the key
is absent. -/
def Mind.outlineClone (m : Mind) (outlineKey : List Char) :
    Mind × Option Outline :=
  match m.getOutline outlineKey with
  | some o =>
      let cloned := { o with key := m.createOutlineKey o.name }
      (((m.remember cloned).onRemembering), some cloned)
  | none => (m, none)

/-- `Mind::outlineForget`: removes the Outline from active Memory, re-keys it
into the limbo namespace and relocates its backing file (the relocation is
persistence, out of the model); returns false when the key is absent. -/
def Mind.outlineForget (m : Mind) (outlineKey : List Char) : Mind × Bool :=
  match m.getOutline outlineKey with
  | some o =>
      let k := createLimboKey o.name
      let m1 := { m with memory := m.memory.filter (fun x => x.key ≠ o.key) }
      ({ m1 with limbo := m1.limbo ++ [{ o with key := k }] }, true)
  | none => (m, false)

/-- `Mind::noteNew`: when the Outline key resolves, builds a Note from the
stencil or a fresh default one, sets name, modification time, type properties,
depth, tags and progress, completes properties, and inserts it into the
Outline at the given offset (the `NO_PARENT` offset meaning prepend); when the
key is absent, throws the not-found fault. -/
def Mind.noteNew (m : Mind) (outlineKey : List Char) (offset : Nat)
    (name : Option (List Char)) (depth : Nat)
    (tags : Option (List (List Char))) (progress : Int)
    (stencil : Option Note) : Mind × MRes Note :=
  match m.getOutline outlineKey with
  | some o =>
      let n0 : Note :=
        match stencil with
        | some st => st
        | none => defaultNote m.now
      let n1 :=
        match name with
        | some nm => { n0 with name := nm }
        | none => n0
      let n2 := { n1 with modified := m.now }
      let n3 := { n2 with depth := depth }
      let n4 :=
        match tags with
        | some ts => { n3 with tags := ts }
        | none => n3
      let n5 := { n4 with progress := progress }
      let o' := o.addNote n5 (if offset = noParentOffset then 0 else offset)
      (m.updateOutline o', MRes.ok n5)
  | none => (m, MRes.fault notFoundMsg)

/-- `Mind::noteClone`: when the Outline key resolves, delegates to the
Outline's own `cloneNote`; when the key is absent, throws the not-found
fault. -/
def Mind.noteClone (m : Mind) (outlineKey : List Char) (idx : Nat) :
    Mind × MRes (Option Note) :=
  match m.getOutline outlineKey with
  | some o =>
      let res := o.cloneNote idx
      (m.updateOutline res.1, MRes.ok res.2)
  | none => (m, MRes.fault notFoundMsg)

/-- `Mind::noteRefactor`: on a null Note throws; when the target Outline key
is absent throws the not-found fault; otherwise collects the Note and its
depth-computed descendant subtree from the source Outline, inserts them into
the target Outline at offset 0, removes the subtree from the source, and
remembers both Outlines; returns the target Outline. A Note reference whose
position does not resolve stands for an invalid pointer. -/
def Mind.noteRefactor (m : Mind) (note : Option NoteRef)
    (targetOutlineKey : List Char) : Mind × MRes Outline :=
  match note with
  | none => (m, MRes.fault refactorNullMsg)
  | some r =>
      match m.getOutline targetOutlineKey with
      | none => (m, MRes.fault notFoundMsg)
      | some targetOutline =>
          match m.resolveNote r with
          | none => (m, MRes.undef)
          | some (sourceOutline, n) =>
              let children := sourceOutline.getNoteChildren r.idx
              let target1 := targetOutline.addNotes (n :: children) 0
              let source1 := sourceOutline.removeNoteAt r.idx
              let m1 := ((m.remember source1).remember target1)
              (m1, MRes.ok target1)

/-- `Mind::noteForget`: dereferences the Note argument with no null check (a
null Note is undefined behavior); when the owning Outline resolves, the
Outline forgets the Note, else the no-owning-Outline fault is thrown. -/
def Mind.noteForget (m : Mind) (note : Option NoteRef) : Mind × MRes Outline :=
  match note with
  | none => (m, MRes.undef)
  | some r =>
      match m.getOutline r.outlineKey with
      | some o =>
          let o' := o.forgetNote r.idx
          (m.updateOutline o', MRes.ok o')
      | none => (m, MRes.fault forgetNoOutlineMsg)

/-- `Mind::noteUp`: on a non-null Note delegates to the owning Outline's
`moveNoteUp`; a null Note is a safe no-op. -/
def Mind.noteUp (m : Mind) (note : Option NoteRef) : Mind × Option Patch :=
  match note with
  | none => (m, none)
  | some r =>
      match m.getOutline r.outlineKey with
      | some o =>
          let res := o.moveNoteUp r.idx
          (m.updateOutline res.1, res.2)
      | none => (m, none)

/-- `Mind::noteDown`: on a non-null Note delegates to the owning Outline's
`moveNoteDown`; a null Note is a safe no-op. -/
def Mind.noteDown (m : Mind) (note : Option NoteRef) : Mind × Option Patch :=
  match note with
  | none => (m, none)
  | some r =>
      match m.getOutline r.outlineKey with
      | some o =>
          let res := o.moveNoteDown r.idx
          (m.updateOutline res.1, res.2)
      | none => (m, none)

/-- `Mind::noteFirst`: on a non-null Note delegates to the owning Outline's
`moveNoteToFirst`; a null Note is a safe no-op. -/
def Mind.noteFirst (m : Mind) (note : Option NoteRef) : Mind × Option Patch :=
  match note with
  | none => (m, none)
  | some r =>
      match m.getOutline r.outlineKey with
      | some o =>
          let res := o.moveNoteToFirst r.idx
          (m.updateOutline res.1, res.2)
      | none => (m, none)

/-- `Mind::noteLast`: on a non-null Note delegates to the owning Outline's
`moveNoteToLast`; a null Note is a safe no-op. -/
def Mind.noteLast (m : Mind) (note : Option NoteRef) : Mind × Option Patch :=
  match note with
  | none => (m, none)
  | some r =>
      match m.getOutline r.outlineKey with
      | some o =>
          let res := o.moveNoteToLast r.idx
          (m.updateOutline res.1, res.2)
      | none => (m, none)

/-- `Mind::notePromote`: on a non-null Note delegates to the owning Outline's
`promoteNote`; a null Note is a safe no-op. -/
def Mind.notePromote (m : Mind) (note : Option NoteRef) : Mind × Option Patch :=
  match note with
  | none => (m, none)
  | some r =>
      match m.getOutline r.outlineKey with
      | some o =>
          let res := o.promoteNote r.idx
          (m.updateOutline res.1, res.2)
      | none => (m, none)

/-- `Mind::noteDemote`: on a non-null Note delegates to the owning Outline's
`demoteNote`; a null Note is a safe no-op. -/
def Mind.noteDemote (m : Mind) (note : Option NoteRef) : Mind × Option Patch :=
  match note with
  | none => (m, none)
  | some r =>
      match m.getOutline r.outlineKey with
      | some o =>
          let res := o.demoteNote r.idx
          (m.updateOutline res.1, res.2)
      | none => (m, none)

/-
 * Concrete fixtures used to evaluate the operations on closed inputs
 -/

/-- A disabled time scope. -/
def offTimeScope : TimeScopeAspect := { enabled := false, threshold := 0 }

/-- A freshly constructed Mind: SLEEPING, no active processes, empty caches
and empty Memory, with an Ai collaborator willing to sleep. -/
def sleepingMind : Mind :=
  { mindState := MindState.SLEEPING
    activeProcesses := 0
    allNotesCache := []
    memoryDwell := []
    triples := []
    memory := []
    limbo := []
    savedConfigs := 0
    aiSleepOk := true
    timeScope := offTimeScope
    now := 0 }

/-- A root-depth Note named a. -/
def aNote : Note :=
  { name := ['a'], depth := 0, description := [], modified := 0, progress := 0, tags := [] }

/-- A depth-one Note named b (a child of the Note preceding it). -/
def bNote : Note :=
  { name := ['b'], depth := 1, description := [], modified := 0, progress := 0, tags := [] }

/-- A root-depth Note named c. -/
def cNote : Note :=
  { name := ['c'], depth := 0, description := [], modified := 0, progress := 0, tags := [] }

/-- An Outline remembered under key k holding one Note. -/
def kOutline : Outline :=
  { key := ['k'], name := ['k'], description := [], notes := [aNote], modified := 0,
    importance := 0, urgency := 0, progress := 0, tags := [], preamble := [] }

/-- A Mind whose Memory holds `kOutline` and whose all-notes cache is
populated. -/
def c1Mind : Mind :=
  { sleepingMind with memory := [kOutline], allNotesCache := [aNote] }

/-- A THINKING Mind whose Ai collaborator refuses to sleep, with a populated
all-notes cache and a remembered Outline. -/
def c4Mind : Mind :=
  { sleepingMind with
    mindState := MindState.THINKING
    aiSleepOk := false
    allNotesCache := [aNote]
    memory := [kOutline] }

/-- A source Outline under key s holding a two-Note subtree (a with child b)
followed by a root Note c. -/
def srcOutline : Outline :=
  { key := ['s'], name := ['s'], description := [], notes := [aNote, bNote, cNote],
    modified := 0, importance := 0, urgency := 0, progress := 0, tags := [], preamble := [] }

/-- A target Outline under key t holding one root Note. -/
def tgtOutline : Outline :=
  { key := ['t'], name := ['t'], description := [], notes := [cNote], modified := 0,
    importance := 0, urgency := 0, progress := 0, tags := [], preamble := [] }

/-- A Mind remembering the refactoring source and target Outlines. -/
def c6Mind : Mind :=
  { sleepingMind with memory := [srcOutline, tgtOutline] }

/-- A Note whose modification timestamp 5 falls before the time-scope
threshold 10 and whose name contains the pattern secret. -/
def oldNote : Note :=
  { name := ("old secret").toList, depth := 0, description := [], modified := 5,
    progress := 0, tags := [] }

/-- The Outline owning `oldNote`. -/
def scopedOutline : Outline :=
  { key := ['o'], name := ['o'], description := [], notes := [oldNote], modified := 50,
    importance := 0, urgency := 0, progress := 0, tags := [], preamble := [] }

/-- A Mind with an enabled time scope whose window excludes `oldNote`. -/
def scopedMind : Mind :=
  { sleepingMind with
    memory := [scopedOutline]
    timeScope := { enabled := true, threshold := 10 } }

/-- A Note whose lower-case name contains the lower-cased pattern Note but not
the pattern byte-exactly. -/
def lowerNote : Note :=
  { name := ("a note about x").toList, depth := 0, description := [], modified := 0,
    progress := 0, tags := [] }

/-- The Outline owning `lowerNote`. -/
def lowerOutline : Outline :=
  { key := ['w'], name := ['w'], description := [], notes := [lowerNote], modified := 0,
    importance := 0, urgency := 0, progress := 0, tags := [], preamble := [] }

/-- A Mind remembering `lowerOutline`, with the time scope disabled. -/
def lowerMind : Mind :=
  { sleepingMind with memory := [lowerOutline] }

/-- A Mind remembering only `kOutline`. -/
def c8Mind : Mind :=
  { sleepingMind with memory := [kOutline] }

/-
 * Theorems
 -/

/-- Remembering an Outline touches Memory only; the all-notes cache is
untouched. -/
theorem remember_allNotesCache (m : Mind) (o : Outline) :
    (m.remember o).allNotesCache = m.allNotesCache := by
  unfold Mind.remember
  split <;> rfl

/-- Writing back a mutated Outline touches Memory only. -/
theorem updateOutline_allNotesCache (m : Mind) (o : Outline) :
    (m.updateOutline o).allNotesCache = m.allNotesCache := rfl

/-- Claim C2: `think` from SLEEPING sets the state to DREAMING before its
handle (the Ai collaborator's pending dream) is produced; from any other state
it returns an already-resolved false handle and leaves the state unchanged. -/
theorem think_from_sleeping_dreams (m : Mind) :
    (m.mindState = MindState.SLEEPING →
       (m.think).1.mindState = MindState.DREAMING ∧
       (m.think).2 = FutureBool.pendingDream) ∧
    (m.mindState ≠ MindState.SLEEPING →
       m.think = (m, FutureBool.resolvedFalse)) := by
  constructor
  · intro h
    simp [Mind.think, Mind.mindDream, h]
  · intro h
    simp [Mind.think, h]

/-- Witness for C2: on a freshly constructed SLEEPING Mind, `think` moves the
state to DREAMING and hands out the pending dream handle. -/
theorem think_from_sleeping_dreams_witness :
    (sleepingMind.think).1.mindState = MindState.DREAMING ∧
    (sleepingMind.think).2 = FutureBool.pendingDream :=
  (think_from_sleeping_dreams sleepingMind).1 (by decide)

/-- Claim C3: `sleep` returns true exactly when the state is not DREAMING, no
foreground processes are active, and the Ai collaborator's sleep succeeds; it
then clears the all-notes, memory-dwell and triples caches, sets the state to
SLEEPING and persists the configuration, leaving everything else unchanged; in
every other case it returns false and leaves the Mind unchanged. -/
theorem sleep_guard_effects (m : Mind) :
    ((m.sleep).2 = true ↔
       (m.mindState ≠ MindState.DREAMING ∧ m.activeProcesses = 0 ∧ m.aiSleepOk = true)) ∧
    ((m.sleep).2 = true →
       (m.sleep).1 = { m with allNotesCache := [], memoryDwell := [], triples := [],
                              mindState := MindState.SLEEPING,
                              savedConfigs := m.savedConfigs + 1 }) ∧
    ((m.sleep).2 = false → (m.sleep).1 = m) := by
  unfold Mind.sleep Mind.mindSleep
  by_cases h1 : m.mindState ≠ MindState.DREAMING ∧ m.activeProcesses = 0
  · by_cases h2 : m.aiSleepOk = true
    · simp [h1, h1.1, h1.2, h2]
    · simp [h1, h1.1, h1.2, h2]
  · rw [if_neg h1]
    refine ⟨?_, ?_, ?_⟩
    · constructor
      · intro h
        simp at h
      · rintro ⟨ha, hb, _⟩
        exact absurd ⟨ha, hb⟩ h1
    · intro h
      simp at h
    · intro _
      rfl

/-- Witness for C3: on a freshly constructed SLEEPING Mind, `sleep` succeeds
and produces exactly the cleared-and-persisted Mind. -/
theorem sleep_guard_effects_witness :
    (sleepingMind.sleep).1
      = { sleepingMind with allNotesCache := [], memoryDwell := [], triples := [],
                            mindState := MindState.SLEEPING,
                            savedConfigs := sleepingMind.savedConfigs + 1 } :=
  (sleep_guard_effects sleepingMind).2.1 (by decide)

/-- Counterexample to C4 as stated: on a THINKING Mind whose Ai collaborator
refuses to sleep, `amnesia` returns true and discards Memory, yet the Mind was
not put to SLEEPING and its all-notes cache was not cleared. -/
theorem amnesia_without_sleep_counterexample :
    (c4Mind.amnesia).2 = true ∧
    (c4Mind.amnesia).1.mindState ≠ MindState.SLEEPING ∧
    (c4Mind.amnesia).1.allNotesCache ≠ [] ∧
    (c4Mind.amnesia).1.memory = [] := by decide

/-- Claim C4 as amended: when the state is not DREAMING and no foreground
processes are active, `amnesia` first attempts the sleep transition - the
caches are cleared and the state set to SLEEPING only when the Ai
collaborator's sleep succeeds - and then discards all learned data and returns
true even when the sleep attempt failed; when DREAMING or with active
foreground processes it returns false and changes nothing. -/
theorem amnesia_discards_after_sleep_attempt (m : Mind) :
    (m.mindState ≠ MindState.DREAMING ∧ m.activeProcesses = 0 →
       (m.amnesia).2 = true ∧ (m.amnesia).1.memory = [] ∧ (m.amnesia).1.limbo = [] ∧
       (m.aiSleepOk = true →
          (m.amnesia).1.mindState = MindState.SLEEPING ∧
          (m.amnesia).1.allNotesCache = [] ∧ (m.amnesia).1.memoryDwell = [] ∧
          (m.amnesia).1.triples = []) ∧
       (m.aiSleepOk = false →
          (m.amnesia).1.mindState = m.mindState ∧
          (m.amnesia).1.allNotesCache = m.allNotesCache)) ∧
    (¬(m.mindState ≠ MindState.DREAMING ∧ m.activeProcesses = 0) →
       m.amnesia = (m, false)) := by
  unfold Mind.amnesia Mind.mindAmnesia Mind.mindSleep
  by_cases h1 : m.mindState ≠ MindState.DREAMING ∧ m.activeProcesses = 0
  · by_cases h2 : m.aiSleepOk = true
    · simp [h1, h2]
    · simp [h1, h2]
  · simp [h1]

/-- Witness for the amended C4: on the THINKING Mind with a sleep-refusing Ai
collaborator, `amnesia` returns true and empties Memory. -/
theorem amnesia_discards_after_sleep_attempt_witness :
    (c4Mind.amnesia).2 = true ∧ (c4Mind.amnesia).1.memory = [] :=
  ⟨((amnesia_discards_after_sleep_attempt c4Mind).1 (by decide)).1,
   ((amnesia_discards_after_sleep_attempt c4Mind).1 (by decide)).2.1⟩

/-- Claim C9: the public full-text search leaves the all-notes cache empty on
every invocation, whatever its arguments and the prior cache content. -/
theorem findNoteFts_empties_allNotesCache (m : Mind) (regexp : List Char)
    (ignoreCase : Bool) (scope : Option Outline) :
    ((m.findNoteFts regexp ignoreCase scope).2).allNotesCache = [] := by
  unfold Mind.findNoteFts
  by_cases h : m.allNotesCache.length ≠ 0
  · simp [h]
  · push_neg at h
    simp [h, List.length_eq_zero.mp h]

/-- Claim C10: `noteForget` dereferences its Note argument with no null check
- a null Note is undefined behavior, while a non-null Note never is - whereas
`noteUp`, `noteDown`, `noteFirst`, `noteLast`, `notePromote` and `noteDemote`
are safe no-ops on a null Note. -/
theorem noteForget_null_vs_move_noops :
    (∀ m : Mind, m.noteForget none = (m, MRes.undef)) ∧
    (∀ (m : Mind) (r : NoteRef), (m.noteForget (some r)).2 ≠ MRes.undef) ∧
    (∀ m : Mind, m.noteUp none = (m, none)) ∧
    (∀ m : Mind, m.noteDown none = (m, none)) ∧
    (∀ m : Mind, m.noteFirst none = (m, none)) ∧
    (∀ m : Mind, m.noteLast none = (m, none)) ∧
    (∀ m : Mind, m.notePromote none = (m, none)) ∧
    (∀ m : Mind, m.noteDemote none = (m, none)) := by
  refine ⟨fun m => rfl, ?_, fun m => rfl, fun m => rfl, fun m => rfl,
          fun m => rfl, fun m => rfl, fun m => rfl⟩
  intro m r
  unfold Mind.noteForget
  cases h : m.getOutline r.outlineKey <;> simp [h]

/-- A found Outline carries the key it was looked up by. -/
theorem lookupOutline_key (l : List Outline) (k : List Char) (o : Outline)
    (h : lookupOutline l k = some o) : o.key = k := by
  induction l with
  | nil => simp [lookupOutline] at h
  | cons a t ih =>
      by_cases ha : a.key = k
      · simp only [lookupOutline, if_pos ha] at h
        cases h
        exact ha
      · simp only [lookupOutline, if_neg ha] at h
        exact ih h

/-- A found Outline carries the key it was looked up by. -/
theorem getOutline_key (m : Mind) (k : List Char) (o : Outline)
    (h : m.getOutline k = some o) : o.key = k :=
  lookupOutline_key m.memory k o h

/-- Replacing the Outline stored under one key does not disturb lookup of a
different key. -/
theorem lookupOutline_map_update_ne (l : List Outline) (o : Outline) (k : List Char)
    (hne : k ≠ o.key) :
    lookupOutline (l.map (fun x => if x.key = o.key then o else x)) k
      = lookupOutline l k := by
  induction l with
  | nil => rfl
  | cons a t ih =>
      simp only [List.map_cons]
      by_cases h : a.key = o.key
      · have ho : ¬o.key = k := fun e => hne e.symm
        have ha : ¬a.key = k := by rw [h]; exact ho
        rw [if_pos h]
        simp only [lookupOutline, if_neg ho, if_neg ha]
        exact ih
      · rw [if_neg h]
        by_cases ha : a.key = k
        · simp only [lookupOutline, if_pos ha]
        · simp only [lookupOutline, if_neg ha]
          exact ih

/-- After replacing the Outline stored under a key that was present, lookup of
that key finds the replacement. -/
theorem lookupOutline_map_update_self (l : List Outline) (o u : Outline)
    (hfind : lookupOutline l o.key = some u) :
    lookupOutline (l.map (fun x => if x.key = o.key then o else x)) o.key
      = some o := by
  induction l with
  | nil => simp [lookupOutline] at hfind
  | cons a t ih =>
      simp only [List.map_cons]
      by_cases h : a.key = o.key
      · rw [if_pos h]
        simp [lookupOutline]
      · rw [if_neg h]
        simp only [lookupOutline, if_neg h] at hfind
        simp only [lookupOutline, if_neg h]
        exact ih hfind

/-- Appending an Outline with a different key does not disturb lookup. -/
theorem lookupOutline_append_single_ne (l : List Outline) (o : Outline)
    (k : List Char) (hne : k ≠ o.key) :
    lookupOutline (l ++ [o]) k = lookupOutline l k := by
  induction l with
  | nil =>
      have ho : ¬o.key = k := fun e => hne e.symm
      simp [lookupOutline, ho]
  | cons a t ih =>
      by_cases ha : a.key = k
      · simp only [List.cons_append, lookupOutline, if_pos ha]
      · simp only [List.cons_append, lookupOutline, if_neg ha]
        exact ih

/-- A successful lookup implies the key-presence check succeeds. -/
theorem hasOutlineKey_of_lookup (l : List Outline) (k : List Char) (u : Outline)
    (h : lookupOutline l k = some u) : hasOutlineKey l k = true := by
  induction l with
  | nil => simp [lookupOutline] at h
  | cons a t ih =>
      by_cases ha : a.key = k
      · simp [hasOutlineKey, ha]
      · simp only [lookupOutline, if_neg ha] at h
        simp only [hasOutlineKey, if_neg ha]
        exact ih h

/-- `remember` does not disturb lookup of a key different from the remembered
Outline's key. -/
theorem getOutline_remember_ne (m : Mind) (o : Outline) (k : List Char)
    (hne : k ≠ o.key) :
    (m.remember o).getOutline k = m.getOutline k := by
  unfold Mind.remember Mind.getOutline
  split
  · exact lookupOutline_map_update_ne m.memory o k hne
  · exact lookupOutline_append_single_ne m.memory o k hne

/-- After remembering an Outline whose key was already present, lookup of that
key finds the remembered Outline. -/
theorem getOutline_remember_self (m : Mind) (o u : Outline) (k : List Char)
    (hk : o.key = k) (hfind : m.getOutline k = some u) :
    (m.remember o).getOutline k = some o := by
  subst hk
  unfold Mind.getOutline at hfind
  unfold Mind.remember Mind.getOutline
  rw [if_pos (hasOutlineKey_of_lookup m.memory o.key u hfind)]
  exact lookupOutline_map_update_self m.memory o u hfind

/-- After writing back a mutated Outline whose key was present, lookup of that
key finds the mutated Outline. -/
theorem getOutline_updateOutline_self (m : Mind) (o' u : Outline) (k : List Char)
    (hk : o'.key = k) (hfind : m.getOutline k = some u) :
    (m.updateOutline o').getOutline k = some o' := by
  subst hk
  unfold Mind.getOutline at hfind
  unfold Mind.updateOutline Mind.getOutline
  exact lookupOutline_map_update_self m.memory o' u hfind

/-- Claim C8: `noteNew` with an absent Outline key raises the fault carrying
the not-found message and leaves the Mind unchanged - never a silent false -
and with a present key builds the Note and inserts it into that Outline at the
given offset, the no-parent offset meaning prepend. -/
theorem noteNew_fault_or_insert (m : Mind) (outlineKey : List Char) (offset : Nat)
    (name : Option (List Char)) (depth : Nat) (tags : Option (List (List Char)))
    (progress : Int) (stencil : Option Note) :
    (m.getOutline outlineKey = none →
       m.noteNew outlineKey offset name depth tags progress stencil
         = (m, MRes.fault notFoundMsg)) ∧
    (∀ o : Outline, m.getOutline outlineKey = some o →
       ∃ n : Note,
         (m.noteNew outlineKey offset name depth tags progress stencil).2 = MRes.ok n ∧
         ((m.noteNew outlineKey offset name depth tags progress stencil).1).getOutline
             outlineKey
           = some (o.addNote n (if offset = noParentOffset then 0 else offset))) := by
  constructor
  · intro h
    simp only [Mind.noteNew, h]
  · intro o h
    have hk : o.key = outlineKey := getOutline_key m outlineKey o h
    subst hk
    simp only [Mind.noteNew, h]
    refine ⟨_, rfl, ?_⟩
    exact getOutline_updateOutline_self m _ o o.key rfl h

/-- Witness for C8: on an empty Memory the key x faults with the not-found
message; on a Memory remembering `kOutline` under key k, a Note is created and
inserted. -/
theorem noteNew_fault_or_insert_witness :
    (sleepingMind.noteNew (['x']) 0 none 0 none 0 none
       = (sleepingMind, MRes.fault notFoundMsg)) ∧
    (∃ n : Note,
       (c8Mind.noteNew (['k']) 0 none 0 none 0 none).2 = MRes.ok n ∧
       ((c8Mind.noteNew (['k']) 0 none 0 none 0 none).1).getOutline (['k'])
         = some (kOutline.addNote n (if 0 = noParentOffset then 0 else 0))) :=
  ⟨(noteNew_fault_or_insert sleepingMind (['x']) 0 none 0 none 0 none).1 (by decide),
   (noteNew_fault_or_insert c8Mind (['k']) 0 none 0 none 0 none).2 kOutline (by decide)⟩

/-- Counterexample to C1 as stated: a successful `noteNew` - a graph-mutating
operation - completes with the previously populated all-notes cache still
populated, so a later read can observe cache content from before the
mutation. -/
theorem noteNew_keeps_allNotesCache_counterexample :
    ((c1Mind.noteNew (['k']) 0 none 0 none 0 none).2).isOk = true ∧
    ((c1Mind.noteNew (['k']) 0 none 0 none 0 none).1).allNotesCache ≠ [] := by
  decide

/-- Claim C1 as amended: among the graph-mutating operations only `outlineNew`
and a successful `outlineClone` clear the all-notes cache (through
`onRemembering`); `noteNew`, `noteClone`, `noteRefactor`, `noteForget`,
`outlineForget` and the note move/promote/demote operations leave the
all-notes cache exactly as it was. -/
theorem allNotesCache_invalidation_per_mutator :
    (∀ (m : Mind) (name : Option (List Char)) (i u p : Int)
        (tg pre : List (List Char)) (st : Option Outline),
       ((m.outlineNew name i u p tg pre st).1).allNotesCache = []) ∧
    (∀ (m : Mind) (k : List Char),
       ((m.outlineClone k).1).allNotesCache
         = if (m.getOutline k).isSome then [] else m.allNotesCache) ∧
    (∀ (m : Mind) (k : List Char) (off : Nat) (nm : Option (List Char)) (d : Nat)
        (tg : Option (List (List Char))) (pr : Int) (st : Option Note),
       ((m.noteNew k off nm d tg pr st).1).allNotesCache = m.allNotesCache) ∧
    (∀ (m : Mind) (k : List Char) (idx : Nat),
       ((m.noteClone k idx).1).allNotesCache = m.allNotesCache) ∧
    (∀ (m : Mind) (r : Option NoteRef) (k : List Char),
       ((m.noteRefactor r k).1).allNotesCache = m.allNotesCache) ∧
    (∀ (m : Mind) (r : Option NoteRef),
       ((m.noteForget r).1).allNotesCache = m.allNotesCache) ∧
    (∀ (m : Mind) (k : List Char),
       ((m.outlineForget k).1).allNotesCache = m.allNotesCache) ∧
    (∀ (m : Mind) (r : Option NoteRef),
       ((m.noteUp r).1).allNotesCache = m.allNotesCache) ∧
    (∀ (m : Mind) (r : Option NoteRef),
       ((m.noteDown r).1).allNotesCache = m.allNotesCache) ∧
    (∀ (m : Mind) (r : Option NoteRef),
       ((m.noteFirst r).1).allNotesCache = m.allNotesCache) ∧
    (∀ (m : Mind) (r : Option NoteRef),
       ((m.noteLast r).1).allNotesCache = m.allNotesCache) ∧
    (∀ (m : Mind) (r : Option NoteRef),
       ((m.notePromote r).1).allNotesCache = m.allNotesCache) ∧
    (∀ (m : Mind) (r : Option NoteRef),
       ((m.noteDemote r).1).allNotesCache = m.allNotesCache) := by
  refine ⟨?_, ?_, ?_, ?_, ?_, ?_, ?_, ?_, ?_, ?_, ?_, ?_, ?_⟩
  · intro m name i u p tg pre st
    simp [Mind.outlineNew, Mind.onRemembering]
  · intro m k
    cases h : m.getOutline k with
    | some o => simp [Mind.outlineClone, h, Mind.onRemembering]
    | none => simp [Mind.outlineClone, h]
  · intro m k off nm d tg pr st
    cases h : m.getOutline k with
    | some o => simp [Mind.noteNew, h, Mind.updateOutline]
    | none => simp [Mind.noteNew, h]
  · intro m k idx
    cases h : m.getOutline k with
    | some o => simp [Mind.noteClone, h, Mind.updateOutline]
    | none => simp [Mind.noteClone, h]
  · intro m r k
    cases r with
    | none => rfl
    | some rr =>
        cases h1 : m.getOutline k with
        | none => simp [Mind.noteRefactor, h1]
        | some tgt =>
            cases h2 : m.resolveNote rr with
            | none => simp [Mind.noteRefactor, h1, h2]
            | some pr =>
                obtain ⟨src, n⟩ := pr
                simp [Mind.noteRefactor, h1, h2, remember_allNotesCache]
  · intro m r
    cases r with
    | none => rfl
    | some rr =>
        cases h : m.getOutline rr.outlineKey with
        | some o => simp [Mind.noteForget, h, Mind.updateOutline]
        | none => simp [Mind.noteForget, h]
  · intro m k
    cases h : m.getOutline k with
    | some o => simp [Mind.outlineForget, h]
    | none => simp [Mind.outlineForget, h]
  · intro m r
    cases r with
    | none => rfl
    | some rr =>
        cases h : m.getOutline rr.outlineKey with
        | some o => simp [Mind.noteUp, h, Mind.updateOutline]
        | none => simp [Mind.noteUp, h]
  · intro m r
    cases r with
    | none => rfl
    | some rr =>
        cases h : m.getOutline rr.outlineKey with
        | some o => simp [Mind.noteDown, h, Mind.updateOutline]
        | none => simp [Mind.noteDown, h]
  · intro m r
    cases r with
    | none => rfl
    | some rr =>
        cases h : m.getOutline rr.outlineKey with
        | some o => simp [Mind.noteFirst, h, Mind.updateOutline]
        | none => simp [Mind.noteFirst, h]
  · intro m r
    cases r with
    | none => rfl
    | some rr =>
        cases h : m.getOutline rr.outlineKey with
        | some o => simp [Mind.noteLast, h, Mind.updateOutline]
        | none => simp [Mind.noteLast, h]
  · intro m r
    cases r with
    | none => rfl
    | some rr =>
        cases h : m.getOutline rr.outlineKey with
        | some o => simp [Mind.notePromote, h, Mind.updateOutline]
        | none => simp [Mind.notePromote, h]
  · intro m r
    cases r with
    | none => rfl
    | some rr =>
        cases h : m.getOutline rr.outlineKey with
        | some o => simp [Mind.noteDemote, h, Mind.updateOutline]
        | none => simp [Mind.noteDemote, h]

/-- The result list of a scoped search is the per-outline scan of the scope
Outline, on the pattern lowercased exactly in the case-insensitive mode. -/
theorem findNoteFts_scoped (m : Mind) (pat : List Char) (ig : Bool) (o : Outline) :
    (m.findNoteFts pat ig (some o)).1
      = findNoteFtsInOutline m.timeScope (if ig then stringToLower pat else pat) ig o :=
  rfl

/-- Membership of a Note other than the Outline descriptor in the
case-insensitive per-outline scan: the Note is among the Outline's Notes, is
not excluded by an enabled time scope, and matches case-insensitively. -/
theorem mem_findNoteFtsInOutline_ci (ts : TimeScopeAspect) (r : List Char)
    (o : Outline) (n : Note) (hd : n ≠ o.descriptorNote) :
    n ∈ findNoteFtsInOutline ts r true o ↔
      (n ∈ o.notes ∧ (!(ts.enabled && ts.isOutOfScope n) && noteMatchesCI r n) = true) := by
  unfold findNoteFtsInOutline
  rw [if_pos rfl, List.mem_append]
  constructor
  · rintro (hl | hr)
    · exfalso
      by_cases hc : noteMatchesCI r o.descriptorNote = true
      · rw [if_pos hc] at hl
        simp at hl
        exact hd hl
      · rw [if_neg hc] at hl
        simp at hl
    · exact List.mem_filter.mp hr
  · intro hrt
    exact Or.inr (List.mem_filter.mpr hrt)

/-- Membership of a Note other than the Outline descriptor in the
case-sensitive per-outline scan: the Note is among the Outline's Notes and
matches byte-exactly; no time-scope condition applies. -/
theorem mem_findNoteFtsInOutline_cs (ts : TimeScopeAspect) (r : List Char)
    (o : Outline) (n : Note) (hd : n ≠ o.descriptorNote) :
    n ∈ findNoteFtsInOutline ts r false o ↔
      (n ∈ o.notes ∧ noteMatchesCS r n = true) := by
  unfold findNoteFtsInOutline
  rw [if_neg Bool.false_ne_true, List.mem_append]
  constructor
  · rintro (hl | hr)
    · exfalso
      by_cases hc : noteMatchesCS r o.descriptorNote = true
      · rw [if_pos hc] at hl
        simp at hl
        exact hd hl
      · rw [if_neg hc] at hl
        simp at hl
    · exact List.mem_filter.mp hr
  · intro hrt
    exact Or.inr (List.mem_filter.mpr hrt)

/-- A case-insensitively matching Outline contributes its descriptor Note to
the per-outline scan, whatever the time scope says. -/
theorem descriptor_mem_findNoteFtsInOutline_ci (ts : TimeScopeAspect) (r : List Char)
    (o : Outline) (h : noteMatchesCI r o.descriptorNote = true) :
    o.descriptorNote ∈ findNoteFtsInOutline ts r true o := by
  unfold findNoteFtsInOutline
  rw [if_pos rfl, if_pos h]
  exact List.mem_append.mpr (Or.inl (List.mem_singleton.mpr rfl))

/-- Counterexample to C5 as stated: with the time scope enabled and `oldNote`
out of the configured window, a case-sensitive full-text search still returns
`oldNote`. -/
theorem caseSensitive_search_ignores_timeScope_counterexample :
    scopedMind.timeScope.enabled = true ∧
    scopedMind.timeScope.isOutOfScope oldNote = true ∧
    oldNote ∈ (scopedMind.findNoteFts (("secret").toList) false none).1 := by
  decide

/-- Claim C5 as amended: time-scope filtering applies only to case-insensitive
full-text search - with the aspect enabled, a case-insensitive search omits
every out-of-window Note while the owning Outline is still checked for its own
descriptor match; the case-sensitive search path has no time-scope filter. -/
theorem timeScope_skips_notes_in_ci_search (m : Mind) (pat : List Char) (o : Outline)
    (n : Note) (hts : m.timeScope.enabled = true)
    (hoos : m.timeScope.isOutOfScope n = true)
    (hd : n ≠ o.descriptorNote) :
    n ∉ (m.findNoteFts pat true (some o)).1 ∧
    (noteMatchesCI (stringToLower pat) o.descriptorNote = true →
       o.descriptorNote ∈ (m.findNoteFts pat true (some o)).1) := by
  constructor
  · intro hmem
    rw [findNoteFts_scoped, if_pos rfl] at hmem
    have h2 := (mem_findNoteFtsInOutline_ci m.timeScope (stringToLower pat) o n hd).mp hmem
    simp [hts, hoos] at h2
  · intro hm
    rw [findNoteFts_scoped, if_pos rfl]
    exact descriptor_mem_findNoteFtsInOutline_ci m.timeScope (stringToLower pat) o hm

/-- Witness for the amended C5: the out-of-window `oldNote` is absent from the
case-insensitive search that the counterexample shows the case-sensitive
search returning it from. -/
theorem timeScope_skips_notes_in_ci_search_witness :
    oldNote ∉ (scopedMind.findNoteFts (("secret").toList) true (some scopedOutline)).1 :=
  (timeScope_skips_notes_in_ci_search scopedMind (("secret").toList) scopedOutline oldNote
     (by decide) (by decide) (by decide)).1

/-- Claim C7: in the case-insensitive mode a Note is returned exactly when its
lowercased name or a lowercased non-null description block contains the
lowercased pattern; in the case-sensitive mode exactly when a field contains
the pattern byte-exactly. -/
theorem findNoteFts_case_modes (m : Mind) (pat : List Char) (o : Outline) (n : Note)
    (hts : m.timeScope.enabled = false)
    (hn : n ∈ o.notes) (hd : n ≠ o.descriptorNote) :
    (n ∈ (m.findNoteFts pat true (some o)).1 ↔
       (strContains (stringToLower pat) (stringToLower n.name)
          || n.description.any (fun d =>
               match d with
               | some s => strContains (stringToLower pat) (stringToLower s)
               | none => false)) = true) ∧
    (n ∈ (m.findNoteFts pat false (some o)).1 ↔
       (strContains pat n.name
          || n.description.any (fun d =>
               match d with
               | some s => strContains pat s
               | none => false)) = true) := by
  constructor
  · rw [findNoteFts_scoped, if_pos rfl,
        mem_findNoteFtsInOutline_ci m.timeScope (stringToLower pat) o n hd]
    simp [hts, hn, noteMatchesCI]
  · rw [findNoteFts_scoped, if_neg Bool.false_ne_true,
        mem_findNoteFtsInOutline_cs m.timeScope pat o n hd]
    simp [hn, noteMatchesCS]

/-- Witness for C7: the case-insensitive search for the pattern Note finds the
Note named a-note-about-x, while the case-sensitive search for the same
pattern does not. -/
theorem findNoteFts_case_modes_witness :
    lowerNote ∈ (lowerMind.findNoteFts (("Note").toList) true (some lowerOutline)).1 ∧
    lowerNote ∉ (lowerMind.findNoteFts (("Note").toList) false (some lowerOutline)).1 := by
  have h := findNoteFts_case_modes lowerMind (("Note").toList) lowerOutline lowerNote
    (by decide) (by decide) (by decide)
  exact ⟨h.1.mpr (by decide), fun hm => absurd (h.2.mp hm) (by decide)⟩

/-- Removing a Note leaves the Outline's key unchanged. -/
theorem removeNoteAt_key (o : Outline) (i : Nat) : (o.removeNoteAt i).key = o.key := by
  unfold Outline.removeNoteAt
  split <;> rfl

/-- Claim C6: a successful `noteRefactor` of a Note of the source Outline into
a distinct target Outline moves the Note and its depth-computed subtree to the
front of the target in order, removes the subtree from the source, and
conserves the total Note count of source plus target. -/
theorem noteRefactor_conserves_notes (m : Mind) (r : NoteRef) (targetKey : List Char)
    (src tgt : Outline) (n : Note)
    (hsrc : m.getOutline r.outlineKey = some src)
    (htgt : m.getOutline targetKey = some tgt)
    (hget : src.notes.get? r.idx = some n)
    (hne : r.outlineKey ≠ targetKey) :
    (m.noteRefactor (some r) targetKey).2
        = MRes.ok (tgt.addNotes (n :: src.getNoteChildren r.idx) 0) ∧
    ((m.noteRefactor (some r) targetKey).1).getOutline targetKey
        = some (tgt.addNotes (n :: src.getNoteChildren r.idx) 0) ∧
    ((m.noteRefactor (some r) targetKey).1).getOutline r.outlineKey
        = some (src.removeNoteAt r.idx) ∧
    (src.removeNoteAt r.idx).notes.length
        + (tgt.addNotes (n :: src.getNoteChildren r.idx) 0).notes.length
      = src.notes.length + tgt.notes.length ∧
    (tgt.addNotes (n :: src.getNoteChildren r.idx) 0).notes
      = n :: (src.getNoteChildren r.idx ++ tgt.notes) := by
  have hks : src.key = r.outlineKey := getOutline_key m _ src hsrc
  have hkt : tgt.key = targetKey := getOutline_key m _ tgt htgt
  have hget2 : src.notes[r.idx]? = some n :=
    (List.get?_eq_getElem? src.notes r.idx).symm.trans hget
  have hres : m.resolveNote r = some (src, n) := by
    simp [Mind.resolveNote, hsrc, hget2]
  have hred : m.noteRefactor (some r) targetKey
      = ((m.remember (src.removeNoteAt r.idx)).remember
           (tgt.addNotes (n :: src.getNoteChildren r.idx) 0),
         MRes.ok (tgt.addNotes (n :: src.getNoteChildren r.idx) 0)) := by
    simp only [Mind.noteRefactor, htgt, hres]
  have hlt : r.idx < src.notes.length := by
    by_contra hcon
    rw [List.get?_eq_none.mpr (Nat.le_of_not_lt hcon)] at hget
    simp at hget
  have h1 : (src.removeNoteAt r.idx).notes
      = src.notes.take r.idx
        ++ (src.notes.drop (r.idx + 1)).dropWhile (fun c => n.depth < c.depth) := by
    unfold Outline.removeNoteAt
    rw [hget]
  have h3 : src.getNoteChildren r.idx
      = (src.notes.drop (r.idx + 1)).takeWhile (fun c => n.depth < c.depth) := by
    unfold Outline.getNoteChildren
    rw [hget]
  have h2 : (tgt.addNotes (n :: src.getNoteChildren r.idx) 0).notes
      = (n :: src.getNoteChildren r.idx) ++ tgt.notes := by
    unfold Outline.addNotes
    simp
  refine ⟨?_, ?_, ?_, ?_, ?_⟩
  · rw [hred]
  · rw [hred]
    have hne1 : targetKey ≠ (src.removeNoteAt r.idx).key := by
      rw [removeNoteAt_key]
      intro e
      exact hne (hks.symm.trans e.symm)
    have hfind1 : (m.remember (src.removeNoteAt r.idx)).getOutline targetKey = some tgt := by
      rw [getOutline_remember_ne m _ targetKey hne1]
      exact htgt
    exact getOutline_remember_self (m.remember (src.removeNoteAt r.idx)) _ tgt targetKey
      hkt hfind1
  · rw [hred]
    have hne2 : r.outlineKey ≠ (tgt.addNotes (n :: src.getNoteChildren r.idx) 0).key := by
      intro e
      apply hne
      rw [← hkt]
      exact e
    rw [getOutline_remember_ne _ _ _ hne2]
    exact getOutline_remember_self m _ src r.outlineKey
      ((removeNoteAt_key src r.idx).trans hks) hsrc
  · rw [h1, h2, h3]
    have hsplit :
        ((src.notes.drop (r.idx + 1)).takeWhile (fun c => n.depth < c.depth)).length
          + ((src.notes.drop (r.idx + 1)).dropWhile (fun c => n.depth < c.depth)).length
        = (src.notes.drop (r.idx + 1)).length := by
      rw [← List.length_append, List.takeWhile_append_dropWhile]
    have hdrop : (src.notes.drop (r.idx + 1)).length = src.notes.length - (r.idx + 1) :=
      List.length_drop _ _
    simp only [List.length_append, List.length_take, List.length_cons]
    omega
  · rw [h2]
    simp

/-- Witness for C6: refactoring the Note a (with child b) out of Outline s
into Outline t conserves the summed Note count and lands the subtree at the
front of t. -/
theorem noteRefactor_conserves_notes_witness :
    (c6Mind.noteRefactor (some { outlineKey := ['s'], idx := 0 }) (['t'])).2
        = MRes.ok (tgtOutline.addNotes (aNote :: srcOutline.getNoteChildren 0) 0) ∧
    ((c6Mind.noteRefactor (some { outlineKey := ['s'], idx := 0 }) (['t'])).1).getOutline
        (['t'])
        = some (tgtOutline.addNotes (aNote :: srcOutline.getNoteChildren 0) 0) ∧
    ((c6Mind.noteRefactor (some { outlineKey := ['s'], idx := 0 }) (['t'])).1).getOutline
        (['s'])
        = some (srcOutline.removeNoteAt 0) ∧
    (srcOutline.removeNoteAt 0).notes.length
        + (tgtOutline.addNotes (aNote :: srcOutline.getNoteChildren 0) 0).notes.length
      = srcOutline.notes.length + tgtOutline.notes.length ∧
    (tgtOutline.addNotes (aNote :: srcOutline.getNoteChildren 0) 0).notes
      = aNote :: (srcOutline.getNoteChildren 0 ++ tgtOutline.notes) :=
  noteRefactor_conserves_notes c6Mind { outlineKey := ['s'], idx := 0 } (['t'])
    srcOutline tgtOutline aNote (by decide) (by decide) (by decide) (by decide)

end M8r
